import Mathlib

set_option maxHeartbeats 1000000

/-!
Verification of `services/template_renderer.go` (dhax/pagoda): a shallow
embedding of the `TemplateRenderer` type and its `Parse`, `Execute`, `Load`
and `ParseAndExecute` methods, together with the `sync.Map` template cache.

External collaborators — the `goweb/config` package, the `html/template`
standard library and the filesystem — are not part of the source tree; they
are modelled from the spec as opaque constants and oracles. Each renderer
method is embedded as a small program of atomic `sync.Map` accesses, which
also gives an interleaving semantics for concurrent calls.
-/

/-- Modelled from the spec: `config.TemplateExt`, the fixed template file
extension exposed by the `goweb/config` package (not under the source tree).
Its concrete value is irrelevant to every property proved here. -/
def TemplateExt : String := ".gohtml"

/-- Modelled from the spec: `config.EnvLocal`, the local/development
environment constant of the `goweb/config` package (not under the source
tree). Its concrete value is irrelevant to every property proved here. -/
def EnvLocal : String := "local"

/-- Modelled from the spec: an opaque compiled template
(`*template.Template`): its root name, the names of the sub-templates the
compiled set defines, and an opaque render function where `none` models a
render-time failure (data shape mismatch and the like). -/
structure Template where
  root : String
  defined : List String
  render : String → String → Option String

/-- Modelled from the spec: `template.New(name).Funcs(funcMap)` — a fresh
template object with the given root name and nothing parsed yet; the
function map is opaque and plays no role in the cached-lifecycle claims. -/
def Template.new (name : String) : Template :=
  { root := name, defined := [], render := fun _ _ => none }

/-- Modelled from the spec: `tmpl.ExecuteTemplate(buf, name, data)` fails
when the named sub-template is not present in the compiled set, or when
rendering itself fails; otherwise it returns the rendered output. -/
def Template.executeTemplate (t : Template) (name data : String) :
    Except String String :=
  if name ∈ t.defined then
    match t.render name data with
    | some out => Except.ok out
    | none => Except.error "render failure"
  else
    Except.error "no such template"

/-- Modelled from the spec: the filesystem together with the
`html/template` parsing entry points. `parseFiles t fs` models
`t.ParseFiles(fs...)` and `parseGlob t pat` models `t.ParseGlob(pat)`;
an `error` result models a missing file, a glob matching nothing, or a
template syntax error. -/
structure TemplateLib where
  parseFiles : Template → List String → Except String Template
  parseGlob : Template → String → Except String Template

/-- A value held by the `sync.Map` template cache. Go stores `interface{}`
values there, so besides a compiled template the type admits values of any
other dynamic type (`other`), which is what the cast in `Load` guards
against. -/
inductive CacheValue where
  | tmpl (t : Template)
  | other (tag : String)

/-- The `sync.Map` template cache, modelled as an association list from the
composite cache key to the stored value. -/
abbrev Cache := List (String × CacheValue)

/-- `sync.Map.Load`: the value at a key, if present. -/
def cacheLoad : Cache → String → Option CacheValue
  | [], _ => none
  | (k, v) :: rest, key => if k = key then some v else cacheLoad rest key

/-- `sync.Map.Store`: set the value for a key, replacing any previous
entry wholesale. -/
def cacheStore : Cache → String → CacheValue → Cache
  | [], key, v => [(key, v)]
  | (k, w) :: rest, key, v =>
      if k = key then (key, v) :: rest else (k, w) :: cacheStore rest key v

/-- `getCacheKey` from the source: `fmt.Sprintf("%s:%s", group, id)`. -/
def getCacheKey (group id : String) : String :=
  group ++ ":" ++ id

/-- The renderer error cases: `notFound` is "uncached page template
requested", `typeError` is "unable to cast cached template", `parseError`
carries an error propagated from `ParseFiles`/`ParseGlob`, `execError`
carries an error propagated from `ExecuteTemplate`. -/
inductive RenderError where
  | notFound
  | typeError
  | parseError (msg : String)
  | execError (msg : String)

/-- The body of `Load` after the `sync.Map` read: an absent key yields
`notFound`; a present value of the wrong dynamic type fails the cast and
yields `typeError`; a compiled template is returned as is. -/
def castTemplate : Option CacheValue → Except RenderError Template
  | none => Except.error RenderError.notFound
  | some (CacheValue.tmpl t) => Except.ok t
  | some (CacheValue.other _) => Except.error RenderError.typeError

/-- A renderer method as a sequence of atomic `sync.Map` accesses on the
shared cache, ending in a result value. This is the granularity at which
concurrent calls interleave: each `load`/`store` is one atomic map
operation. -/
inductive Prog (α : Type) where
  | done (a : α)
  | load (key : String) (cont : Option CacheValue → Prog α)
  | store (key : String) (val : CacheValue) (next : Prog α)

/-- Run a program to completion against a cache, alone. -/
def Prog.run {α : Type} : Prog α → Cache → α × Cache
  | Prog.done a, c => (a, c)
  | Prog.load k f, c => Prog.run (f (cacheLoad c k)) c
  | Prog.store k v p, c => Prog.run p (cacheStore c k v)

/-- Sequencing of cache programs. -/
def Prog.bind {α β : Type} : Prog α → (α → Prog β) → Prog β
  | Prog.done a, f => f a
  | Prog.load k g, f => Prog.load k (fun v => Prog.bind (g v) f)
  | Prog.store k v p, f => Prog.store k v (Prog.bind p f)

/-- `directories` loop of `Parse`: for each directory fragment, glob
`templatesPath/dir/*ext` into the template, stopping at the first error. -/
def parseGlobs (lib : TemplateLib) (tp : String) :
    Template → List String → Except String Template
  | p, [] => Except.ok p
  | p, dir :: rest =>
      match lib.parseGlob p (tp ++ "/" ++ dir ++ "/*" ++ TemplateExt) with
      | Except.error e => Except.error e
      | Except.ok q => parseGlobs lib tp q rest

/-- The re-parse branch of `Parse`, minus the final store: build the fresh
template with the function map, prefix each listed file in place with
`templatesPath + "/" + v + ext` (only when the list is non-empty, matching
the `len(files) > 0` guard), run `ParseFiles` on the mutated list, then the
directory globs. Returns the final state of the caller's `files` slice and
either the compiled template or the first error. -/
def freshParse (lib : TemplateLib) (tp name : String)
    (files directories : List String) :
    List String × Except String Template :=
  let parsed := Template.new (name ++ TemplateExt)
  if files.isEmpty then
    (files, parseGlobs lib tp parsed directories)
  else
    let mutated := files.map (fun v => tp ++ "/" ++ v ++ TemplateExt)
    match lib.parseFiles parsed mutated with
    | Except.error e => (mutated, Except.error e)
    | Except.ok p => (mutated, parseGlobs lib tp p directories)

/-- The branch condition of `Parse`:
`err != nil || t.config.App.Environment == config.EnvLocal`. -/
def needsReparse (r : Except RenderError Template) (env : String) : Bool :=
  (match r with | Except.ok _ => false | Except.error _ => true)
    || (env == EnvLocal)

/-- `Parse` as a cache program: one atomic load of the key (the `t.Load`
call inside the branch condition), then — when the key is absent, the cast
fails, or the environment is local — the fresh parse followed by one atomic
store on success. The result carries the error return value and the final
state of the caller's `files` slice. -/
def ParseProg (lib : TemplateLib) (tp env group id name : String)
    (files directories : List String) :
    Prog (Option RenderError × List String) :=
  Prog.load (getCacheKey group id) (fun entry =>
    if needsReparse (castTemplate entry) env then
      match freshParse lib tp name files directories with
      | (mutated, Except.error e) =>
          Prog.done (some (RenderError.parseError e), mutated)
      | (mutated, Except.ok parsed) =>
          Prog.store (getCacheKey group id) (CacheValue.tmpl parsed)
            (Prog.done (none, mutated))
    else
      Prog.done (none, files))

/-- `Execute` as a cache program: one atomic load (via `Load`), then the
pure `ExecuteTemplate` call on `name ++ ext`; no store ever happens. -/
def ExecuteProg (group id name data : String) :
    Prog (Except RenderError String) :=
  Prog.load (getCacheKey group id) (fun entry =>
    match castTemplate entry with
    | Except.error e => Prog.done (Except.error e)
    | Except.ok tmpl =>
        Prog.done (
          match tmpl.executeTemplate (name ++ TemplateExt) data with
          | Except.error e => Except.error (RenderError.execError e)
          | Except.ok out => Except.ok out))

/-- `ParseAndExecute` as a cache program: `Parse`, short-circuiting on its
error, then `Execute`. -/
def ParseAndExecuteProg (lib : TemplateLib) (tp env group id name : String)
    (files directories : List String) (data : String) :
    Prog (Except RenderError String) :=
  Prog.bind (ParseProg lib tp env group id name files directories) (fun pr =>
    match pr.1 with
    | some e => Prog.done (Except.error e)
    | none => ExecuteProg group id name data)

/-- The `TemplateRenderer` struct: the template cache, the resolved
templates path, and the one piece of configuration `Parse` reads
(`config.App.Environment`). The function map is opaque and folded into
`Template.new`. -/
structure TemplateRenderer where
  templateCache : Cache
  templatesPath : String
  environment : String

/-- The full outcome of a `Parse` call: the returned error value, the state
of the caller's `files` slice after the call (Go slices are mutated in
place), and the renderer afterwards. -/
structure ParseOutcome where
  result : Option RenderError
  files : List String
  state : TemplateRenderer

/-- The `Parse` method, run alone. -/
def Parse (lib : TemplateLib) (t : TemplateRenderer) (group id name : String)
    (files directories : List String) : ParseOutcome :=
  let r := Prog.run
    (ParseProg lib t.templatesPath t.environment group id name files directories)
    t.templateCache
  { result := r.1.1, files := r.1.2,
    state := { t with templateCache := r.2 } }

/-- The `Execute` method, run alone: the returned buffer or error, and the
renderer afterwards. -/
def Execute (t : TemplateRenderer) (group id name data : String) :
    Except RenderError String × TemplateRenderer :=
  let r := Prog.run (ExecuteProg group id name data) t.templateCache
  (r.1, { t with templateCache := r.2 })

/-- The `Load` method: one cache read followed by the type cast. -/
def Load (t : TemplateRenderer) (group id : String) :
    Except RenderError Template :=
  castTemplate (cacheLoad t.templateCache (getCacheKey group id))

/-- The `ParseAndExecute` method, run alone. -/
def ParseAndExecute (lib : TemplateLib) (t : TemplateRenderer)
    (group id name : String) (files directories : List String)
    (data : String) : Except RenderError String × TemplateRenderer :=
  let r := Prog.run
    (ParseAndExecuteProg lib t.templatesPath t.environment group id name
      files directories data)
    t.templateCache
  (r.1, { t with templateCache := r.2 })

/-! ### Basic cache lemmas -/

theorem cacheLoad_store_self (c : Cache) (k : String) (v : CacheValue) :
    cacheLoad (cacheStore c k v) k = some v := by
  induction c with
  | nil => simp [cacheStore, cacheLoad]
  | cons hd tl ih =>
      obtain ⟨k1, w⟩ := hd
      by_cases h : k1 = k <;> simp [cacheStore, cacheLoad, h, ih]

theorem cacheLoad_store_ne (c : Cache) (k k1 : String) (v : CacheValue)
    (h : k1 ≠ k) : cacheLoad (cacheStore c k v) k1 = cacheLoad c k1 := by
  have hk : ¬ k = k1 := fun h1 => h h1.symm
  induction c with
  | nil => simp [cacheStore, cacheLoad, hk]
  | cons hd tl ih =>
      obtain ⟨k2, w⟩ := hd
      by_cases h2 : k2 = k
      · subst h2
        simp [cacheStore, cacheLoad, hk]
      · by_cases h3 : k2 = k1 <;> simp [cacheStore, cacheLoad, h2, h3, ih, h]

/-! ### Characterizations of the methods run alone -/

theorem Parse_eq (lib : TemplateLib) (t : TemplateRenderer)
    (group id name : String) (files directories : List String) :
    Parse lib t group id name files directories =
      if needsReparse (Load t group id) t.environment then
        match freshParse lib t.templatesPath name files directories with
        | (mutated, Except.error e) =>
            { result := some (RenderError.parseError e), files := mutated,
              state := t }
        | (mutated, Except.ok p) =>
            { result := none, files := mutated,
              state := { t with
                templateCache := cacheStore t.templateCache
                  (getCacheKey group id) (CacheValue.tmpl p) } }
      else
        { result := none, files := files, state := t } := by
  simp only [Parse, ParseProg, Prog.run, Load]
  split
  · split <;> simp [Prog.run]
  · rfl

theorem Execute_eq (t : TemplateRenderer) (group id name data : String) :
    Execute t group id name data =
      (match Load t group id with
       | Except.error e => Except.error e
       | Except.ok tmpl =>
           match tmpl.executeTemplate (name ++ TemplateExt) data with
           | Except.error e => Except.error (RenderError.execError e)
           | Except.ok out => Except.ok out,
       t) := by
  simp only [Execute, ExecuteProg, Prog.run, Load]
  split <;> rfl

/-! ### Separator-free concatenation is injective (for C1) -/

theorem append_sep_inj (c : Char) (l1 : List Char) :
    ∀ (l2 r1 r2 : List Char), c ∉ l1 → c ∉ l2 →
      l1 ++ c :: r1 = l2 ++ c :: r2 → l1 = l2 ∧ r1 = r2 := by
  induction l1 with
  | nil =>
      intro l2 r1 r2 _ h2 heq
      cases l2 with
      | nil => simpa using heq
      | cons x xs =>
          simp only [List.nil_append, List.cons_append, List.cons.injEq] at heq
          exact absurd (heq.1 ▸ List.mem_cons_self x xs) h2
  | cons x xs ih =>
      intro l2 r1 r2 h1 h2 heq
      cases l2 with
      | nil =>
          simp only [List.cons_append, List.nil_append, List.cons.injEq] at heq
          exact absurd (heq.1 ▸ List.mem_cons_self x xs) h1
      | cons y ys =>
          simp only [List.cons_append, List.cons.injEq] at heq
          obtain ⟨hxy, htl⟩ := heq
          have h1x : c ∉ xs := fun hm => h1 (List.mem_cons_of_mem x hm)
          have h2y : c ∉ ys := fun hm => h2 (List.mem_cons_of_mem y hm)
          obtain ⟨he, hr⟩ := ih ys r1 r2 h1x h2y htl
          exact ⟨by rw [hxy, he], hr⟩

theorem getCacheKey_data (group id : String) :
    (getCacheKey group id).data = group.data ++ ':' :: id.data := by
  simp [getCacheKey, String.data_append]

/-! ### Branch lemmas for `Parse` -/

theorem needsReparse_of_local (r : Except RenderError Template) :
    needsReparse r EnvLocal = true := by
  simp [needsReparse]

theorem Parse_branch (lib : TemplateLib) (t : TemplateRenderer)
    (group id name : String) (files directories : List String)
    (hbranch : needsReparse (Load t group id) t.environment = true) :
    Parse lib t group id name files directories =
      match freshParse lib t.templatesPath name files directories with
      | (mutated, Except.error e) =>
          { result := some (RenderError.parseError e), files := mutated,
            state := t }
      | (mutated, Except.ok p) =>
          { result := none, files := mutated,
            state := { t with
              templateCache := cacheStore t.templateCache
                (getCacheKey group id) (CacheValue.tmpl p) } } := by
  rw [Parse_eq, if_pos hbranch]

theorem Parse_skip (lib : TemplateLib) (t : TemplateRenderer)
    (group id name : String) (files directories : List String)
    (hbranch : needsReparse (Load t group id) t.environment = false) :
    Parse lib t group id name files directories =
      { result := none, files := files, state := t } := by
  rw [Parse_eq]
  simp [hbranch]

theorem freshParse_files_of_ne (lib : TemplateLib) (tp name : String)
    (files directories : List String) (hne : files ≠ []) :
    (freshParse lib tp name files directories).1 =
      files.map (fun v => tp ++ "/" ++ v ++ TemplateExt) := by
  have he : files.isEmpty = false := by
    cases files with
    | nil => exact absurd rfl hne
    | cons a l => rfl
  simp only [freshParse, he]
  split
  · next h => exact absurd h (by simp)
  · split <;> rfl

theorem parse_files_out (lib : TemplateLib) (t : TemplateRenderer)
    (group id name : String) (files directories : List String)
    (hbranch : needsReparse (Load t group id) t.environment = true)
    (hne : files ≠ []) :
    (Parse lib t group id name files directories).files =
      files.map (fun v => t.templatesPath ++ "/" ++ v ++ TemplateExt) := by
  have hf := freshParse_files_of_ne lib t.templatesPath name files directories
    hne
  rw [Parse_branch lib t group id name files directories hbranch]
  split
  · next mutated e heq => rw [heq] at hf; exact hf
  · next mutated p heq => rw [heq] at hf; exact hf

theorem Parse_preserves_fields (lib : TemplateLib) (t : TemplateRenderer)
    (group id name : String) (files directories : List String) :
    (Parse lib t group id name files directories).state.templatesPath =
        t.templatesPath ∧
    (Parse lib t group id name files directories).state.environment =
        t.environment := by
  rw [Parse_eq]
  split
  · split <;> exact ⟨rfl, rfl⟩
  · exact ⟨rfl, rfl⟩

/-! ### Fixtures for the concrete witnesses -/

/-- A parsing oracle under which every file list and glob parses: the
compiled result defines exactly the given file paths as sub-templates. -/
def okLib : TemplateLib :=
  { parseFiles := fun _ fs =>
      Except.ok { root := "r", defined := fs, render := fun _ _ => some "out" },
    parseGlob := fun p _ => Except.ok p }

/-- A parsing oracle under which every file list and glob fails to load. -/
def failLib : TemplateLib :=
  { parseFiles := fun _ _ => Except.error "no such file",
    parseGlob := fun _ _ => Except.error "pattern matches no files" }

/-- A compiled template fixture defining the single sub-template
`a.gohtml`. -/
def tmplA : Template :=
  { root := "a.gohtml", defined := ["a.gohtml"],
    render := fun _ _ => some "out" }

/-- A renderer in local environment with an empty cache. -/
def rLocal : TemplateRenderer :=
  { templateCache := [], templatesPath := "tp", environment := "local" }

/-- A renderer in local environment whose cache already holds `tmplA`. -/
def rLocalC : TemplateRenderer :=
  { templateCache := [("g:i", CacheValue.tmpl tmplA)], templatesPath := "tp",
    environment := "local" }

/-- A renderer in a non-local environment whose cache already holds
`tmplA` under the key `g:i`. -/
def rProd : TemplateRenderer :=
  { templateCache := [("g:i", CacheValue.tmpl tmplA)], templatesPath := "tp",
    environment := "production" }

/-! ### The claims -/

/-- C1, counterexample: `getCacheKey` is not injective on all (group, id)
pairs — the distinct pairs `("a:b", "c")` and `("a", "b:c")` both map to
the composite key `"a:b:c"`. -/
theorem getCacheKey_collision :
    getCacheKey "a:b" "c" = getCacheKey "a" "b:c" ∧
      ¬(("a:b" : String) = "a" ∧ ("c" : String) = "b:c") :=
  ⟨by decide, by decide⟩

/-- C1, amended: the mapping from (group, id) to the composite cache key
`group ++ ":" ++ id` is injective provided the group components contain no
occurrence of the separator character; under that proviso one key never
identifies two different compiled template sets. -/
theorem getCacheKey_injective_sepFree (g1 i1 g2 i2 : String)
    (h1 : ':' ∉ g1.data) (h2 : ':' ∉ g2.data)
    (hk : getCacheKey g1 i1 = getCacheKey g2 i2) : g1 = g2 ∧ i1 = i2 := by
  have hd : (getCacheKey g1 i1).data = (getCacheKey g2 i2).data := by rw [hk]
  rw [getCacheKey_data, getCacheKey_data] at hd
  obtain ⟨hg, hi⟩ := append_sep_inj ':' g1.data g2.data i1.data i2.data h1 h2 hd
  exact ⟨String.ext hg, String.ext hi⟩

/-- C1 witness: the amended injectivity lemma applied at the concrete
separator-free pairs `("site", "home")` and `("site", "home")`. -/
theorem getCacheKey_injective_sepFree_witness :
    (':' ∉ ("site" : String).data) ∧
      getCacheKey "site" "home" = getCacheKey "site" "home" ∧
      (("site" : String) = "site" ∧ ("home" : String) = "home") :=
  ⟨by decide, rfl,
    getCacheKey_injective_sepFree "site" "home" "site" "home" (by decide)
      (by decide) rfl⟩

/-- C2: a `Parse` call that takes the re-parse branch with a non-empty
`files` argument rewrites the caller's slice in place, replacing each
element `v` with `templatesPath ++ "/" ++ v ++ ext` — this holds whether the
call succeeds or returns an error — and consequently a second local-mode
`Parse` that reuses the mutated slice passes doubly-prefixed paths. -/
theorem Parse_mutates_caller_files (lib : TemplateLib) (t : TemplateRenderer)
    (group id name : String) (files directories : List String)
    (hbranch : needsReparse (Load t group id) t.environment = true)
    (hne : files ≠ []) :
    (Parse lib t group id name files directories).files =
      files.map (fun v => t.templatesPath ++ "/" ++ v ++ TemplateExt) ∧
    (t.environment = EnvLocal →
      (Parse lib (Parse lib t group id name files directories).state group id
          name ((Parse lib t group id name files directories).files)
          directories).files =
        files.map (fun v => t.templatesPath ++ "/"
          ++ (t.templatesPath ++ "/" ++ v ++ TemplateExt) ++ TemplateExt)) := by
  have h1 := parse_files_out lib t group id name files directories hbranch hne
  refine ⟨h1, fun hlocal => ?_⟩
  have hfields := Parse_preserves_fields lib t group id name files directories
  have hb2 : needsReparse
      (Load (Parse lib t group id name files directories).state group id)
      (Parse lib t group id name files directories).state.environment = true := by
    rw [hfields.2, hlocal]
    exact needsReparse_of_local _
  have hne2 : (Parse lib t group id name files directories).files ≠ [] := by
    rw [h1]
    cases files with
    | nil => exact absurd rfl hne
    | cons a l => simp
  have h2 := parse_files_out lib
    (Parse lib t group id name files directories).state group id name
    ((Parse lib t group id name files directories).files) directories hb2 hne2
  rw [h2, hfields.1, h1, List.map_map]
  rfl

/-- C2 witness: a local-mode renderer with an empty cache, one listed file
`f`, no directories; both the single-call mutation and the double-prefix
equation evaluated concretely. -/
theorem Parse_mutates_caller_files_witness :
    needsReparse (Load rLocal "g" "i") rLocal.environment = true ∧
    (["f"] : List String) ≠ [] ∧
    ((Parse okLib rLocal "g" "i" "n" ["f"] []).files =
        ["f"].map (fun v => rLocal.templatesPath ++ "/" ++ v ++ TemplateExt) ∧
      (rLocal.environment = EnvLocal →
        (Parse okLib (Parse okLib rLocal "g" "i" "n" ["f"] []).state "g" "i"
            "n" ((Parse okLib rLocal "g" "i" "n" ["f"] []).files) []).files =
          ["f"].map (fun v => rLocal.templatesPath ++ "/"
            ++ (rLocal.templatesPath ++ "/" ++ v ++ TemplateExt)
            ++ TemplateExt))) :=
  ⟨rfl, by decide,
    Parse_mutates_caller_files okLib rLocal "g" "i" "n" ["f"] [] rfl
      (by decide)⟩

/-- C3: when the fresh parse fails — any listed file or any directory glob
fails to load — `Parse` returns that error as a `ParseError` and the
renderer state, its cache included, is exactly what it was before the call:
the store happens only after every file and directory parses. -/
theorem Parse_fail_no_partial_store (lib : TemplateLib) (t : TemplateRenderer)
    (group id name : String) (files directories : List String)
    (fl : List String) (msg : String)
    (hbranch : needsReparse (Load t group id) t.environment = true)
    (hfail : freshParse lib t.templatesPath name files directories =
      (fl, Except.error msg)) :
    (Parse lib t group id name files directories).result =
      some (RenderError.parseError msg) ∧
    (Parse lib t group id name files directories).state = t := by
  rw [Parse_branch lib t group id name files directories hbranch, hfail]
  exact ⟨rfl, rfl⟩

/-- C3 witness: a local-mode renderer and the always-failing oracle; the
call reports the `ParseError` and leaves the state untouched. -/
theorem Parse_fail_no_partial_store_witness :
    needsReparse (Load rLocal "g" "i") rLocal.environment = true ∧
    freshParse failLib rLocal.templatesPath "n" ["f"] [] =
      (["f"].map (fun v => rLocal.templatesPath ++ "/" ++ v ++ TemplateExt),
        Except.error "no such file") ∧
    ((Parse failLib rLocal "g" "i" "n" ["f"] []).result =
        some (RenderError.parseError "no such file") ∧
      (Parse failLib rLocal "g" "i" "n" ["f"] []).state = rLocal) :=
  ⟨rfl, rfl,
    Parse_fail_no_partial_store failLib rLocal "g" "i" "n" ["f"] [] _
      "no such file" rfl rfl⟩

/-- C4: when the key already holds a compiled template and the environment
is not local, `Parse` succeeds and is a no-op — the outcome reports no
error, the caller's file slice is untouched and the renderer state, cached
template instance included, is identical. -/
theorem Parse_cached_noop (lib : TemplateLib) (t : TemplateRenderer)
    (group id name : String) (files directories : List String) (tm : Template)
    (hent : cacheLoad t.templateCache (getCacheKey group id) =
      some (CacheValue.tmpl tm))
    (henv : t.environment ≠ EnvLocal) :
    Parse lib t group id name files directories =
      { result := none, files := files, state := t } := by
  apply Parse_skip
  simp [needsReparse, Load, hent, castTemplate, henv]

/-- C4 witness: a production-environment renderer whose cache already holds
`tmplA`; the `Parse` call is evaluated to the no-op outcome. -/
theorem Parse_cached_noop_witness :
    cacheLoad rProd.templateCache (getCacheKey "g" "i") =
      some (CacheValue.tmpl tmplA) ∧
    rProd.environment ≠ EnvLocal ∧
    Parse okLib rProd "g" "i" "n" ["f"] [] =
      { result := none, files := ["f"], state := rProd } :=
  ⟨rfl, by decide,
    Parse_cached_noop okLib rProd "g" "i" "n" ["f"] [] tmplA rfl (by decide)⟩

/-- C5: in local environment `Parse` performs the fresh parse regardless of
the cache contents — the outcome is a function of the oracle alone — and a
successful fresh parse stores the newly compiled template under the key,
fully replacing any previous entry. -/
theorem Parse_local_always_fresh (lib : TemplateLib) (t : TemplateRenderer)
    (group id name : String) (files directories : List String)
    (hlocal : t.environment = EnvLocal) :
    Parse lib t group id name files directories =
      (match freshParse lib t.templatesPath name files directories with
       | (mutated, Except.error e) =>
           { result := some (RenderError.parseError e), files := mutated,
             state := t }
       | (mutated, Except.ok p) =>
           { result := none, files := mutated,
             state := { t with
               templateCache := cacheStore t.templateCache
                 (getCacheKey group id) (CacheValue.tmpl p) } }) ∧
    (∀ fl p, freshParse lib t.templatesPath name files directories =
        (fl, Except.ok p) →
      cacheLoad
          (Parse lib t group id name files directories).state.templateCache
          (getCacheKey group id) =
        some (CacheValue.tmpl p)) := by
  have hb : needsReparse (Load t group id) t.environment = true := by
    rw [hlocal]
    exact needsReparse_of_local _
  have hmain := Parse_branch lib t group id name files directories hb
  refine ⟨hmain, fun fl p hfp => ?_⟩
  rw [hmain, hfp]
  exact cacheLoad_store_self _ _ _

/-- C5 witness: a local-mode renderer whose cache already holds `tmplA`
under the key; the fresh parse both happens and overwrites the entry. -/
theorem Parse_local_always_fresh_witness :
    rLocalC.environment = EnvLocal ∧
    (Parse okLib rLocalC "g" "i" "n" ["f"] [] =
      (match freshParse okLib rLocalC.templatesPath "n" ["f"] [] with
       | (mutated, Except.error e) =>
           { result := some (RenderError.parseError e), files := mutated,
             state := rLocalC }
       | (mutated, Except.ok p) =>
           { result := none, files := mutated,
             state := { rLocalC with
               templateCache := cacheStore rLocalC.templateCache
                 (getCacheKey "g" "i") (CacheValue.tmpl p) } }) ∧
    (∀ fl p, freshParse okLib rLocalC.templatesPath "n" ["f"] [] =
        (fl, Except.ok p) →
      cacheLoad
          (Parse okLib rLocalC "g" "i" "n" ["f"] []).state.templateCache
          (getCacheKey "g" "i") =
        some (CacheValue.tmpl p))) :=
  ⟨rfl, Parse_local_always_fresh okLib rLocalC "g" "i" "n" ["f"] [] rfl⟩

/-- C6: for a key never stored in the cache, `Execute` fails with the
not-found error from the key lookup and produces no buffer; the renderer is
unchanged. -/
theorem Execute_uncached_notFound (t : TemplateRenderer)
    (group id name data : String)
    (h : cacheLoad t.templateCache (getCacheKey group id) = none) :
    (Execute t group id name data).1 = Except.error RenderError.notFound ∧
    (Execute t group id name data).2 = t := by
  rw [Execute_eq]
  constructor
  · simp [Load, h, castTemplate]
  · rfl

/-- C6 witness: executing against an empty cache yields `notFound`. -/
theorem Execute_uncached_notFound_witness :
    cacheLoad rLocal.templateCache (getCacheKey "g" "i") = none ∧
    ((Execute rLocal "g" "i" "n" "d").1 = Except.error RenderError.notFound ∧
      (Execute rLocal "g" "i" "n" "d").2 = rLocal) :=
  ⟨rfl, Execute_uncached_notFound rLocal "g" "i" "n" "d" rfl⟩

/-- C7: when the cached compiled set holds no sub-template named
`name ++ ext`, `Execute` fails with an `ExecutionError` (the render-time
error) and returns no buffer. -/
theorem Execute_missing_name (t : TemplateRenderer)
    (group id name data : String) (tm : Template)
    (h : cacheLoad t.templateCache (getCacheKey group id) =
      some (CacheValue.tmpl tm))
    (hname : (name ++ TemplateExt) ∉ tm.defined) :
    ∃ msg, (Execute t group id name data).1 =
      Except.error (RenderError.execError msg) := by
  refine ⟨"no such template", ?_⟩
  rw [Execute_eq]
  simp [Load, h, castTemplate, Template.executeTemplate, hname]

/-- C7 witness: `tmplA` defines only `a.gohtml`, so executing the name `n`
against it fails with an execution error. -/
theorem Execute_missing_name_witness :
    cacheLoad rProd.templateCache (getCacheKey "g" "i") =
      some (CacheValue.tmpl tmplA) ∧
    ("n" ++ TemplateExt) ∉ tmplA.defined ∧
    ∃ msg, (Execute rProd "g" "i" "n" "d").1 =
      Except.error (RenderError.execError msg) :=
  ⟨rfl, by decide,
    Execute_missing_name rProd "g" "i" "n" "d" tmplA rfl (by decide)⟩

/-- C8: `Execute` never touches the cache — succeeding or failing, the
renderer after the call is identical to the renderer before it, so the only
effect of `Execute` is the returned buffer or error. -/
theorem Execute_cache_unchanged (t : TemplateRenderer)
    (group id name data : String) :
    (Execute t group id name data).2 = t := by
  rw [Execute_eq]

/-! ### Reachable cache states (for C9) -/

/-- Cache states reachable under correct usage: starting from the empty
cache of `NewTemplateRenderer`, the cache evolves only through `Parse` and
`Execute` calls. -/
inductive Reachable : Cache → Prop where
  | empty : Reachable []
  | parse (c : Cache) (lib : TemplateLib) (tp env group id name : String)
      (files directories : List String) : Reachable c →
      Reachable (Parse lib
        { templateCache := c, templatesPath := tp, environment := env }
        group id name files directories).state.templateCache
  | execute (c : Cache) (tp env group id name data : String) : Reachable c →
      Reachable (Execute
        { templateCache := c, templatesPath := tp, environment := env }
        group id name data).2.templateCache

/-- Every value the cache holds is a compiled template. -/
def allTemplates (c : Cache) : Prop :=
  ∀ k v, cacheLoad c k = some v → ∃ tm, v = CacheValue.tmpl tm

theorem allTemplates_store_tmpl (c : Cache) (k : String) (tm : Template)
    (h : allTemplates c) :
    allTemplates (cacheStore c k (CacheValue.tmpl tm)) := by
  intro k1 v hv
  by_cases hk : k1 = k
  · subst hk
    rw [cacheLoad_store_self] at hv
    exact ⟨tm, (Option.some.injEq _ _ ▸ hv).symm⟩
  · rw [cacheLoad_store_ne c k k1 _ hk] at hv
    exact h k1 v hv

theorem reachable_allTemplates (c : Cache) (h : Reachable c) :
    allTemplates c := by
  induction h with
  | empty => intro k v hv; simp [cacheLoad] at hv
  | parse c lib tp env group id name files directories hr ih =>
      rw [Parse_eq]
      split
      · split
        · exact ih
        · exact allTemplates_store_tmpl _ _ _ ih
      · exact ih
  | execute c tp env group id name data hr ih =>
      rw [Execute_eq]
      exact ih

/-- C9: only `Parse` ever stores into the cache and it stores only compiled
templates, so on every reachable cache state the defensive cast in `Load`
is unreachable: `Load` on a present key always returns the compiled
template, never the `TypeError`. -/
theorem Load_no_typeError (t : TemplateRenderer) (group id : String)
    (v : CacheValue) (hr : Reachable t.templateCache)
    (hv : cacheLoad t.templateCache (getCacheKey group id) = some v) :
    ∃ tm, Load t group id = Except.ok tm ∧ v = CacheValue.tmpl tm := by
  obtain ⟨tm, htm⟩ := reachable_allTemplates _ hr _ _ hv
  subst htm
  exact ⟨tm, by simp [Load, hv, castTemplate], rfl⟩

/-- C9 witness: the cache reached by one successful `Parse` from the empty
cache holds a template under its key, and `Load` returns it. -/
theorem Load_no_typeError_witness :
    Reachable (Parse okLib
      { templateCache := [], templatesPath := "tp", environment := "dev" }
      "g" "i" "n" ["f"] []).state.templateCache ∧
    cacheLoad (Parse okLib
        { templateCache := [], templatesPath := "tp", environment := "dev" }
        "g" "i" "n" ["f"] []).state.templateCache (getCacheKey "g" "i") =
      some (CacheValue.tmpl
        { root := "r", defined := ["tp" ++ "/" ++ "f" ++ TemplateExt],
          render := fun _ _ => some "out" }) ∧
    ∃ tm, Load
        { templateCache := (Parse okLib
            { templateCache := [], templatesPath := "tp",
              environment := "dev" } "g" "i" "n" ["f"] []).state.templateCache,
          templatesPath := "tp", environment := "dev" } "g" "i" =
        Except.ok tm ∧
      CacheValue.tmpl
          { root := "r", defined := ["tp" ++ "/" ++ "f" ++ TemplateExt],
            render := fun _ _ => some "out" } =
        CacheValue.tmpl tm :=
  ⟨Reachable.parse [] okLib "tp" "dev" "g" "i" "n" ["f"] [] Reachable.empty,
    rfl,
    Load_no_typeError
      { templateCache := (Parse okLib
          { templateCache := [], templatesPath := "tp", environment := "dev" }
          "g" "i" "n" ["f"] []).state.templateCache,
        templatesPath := "tp", environment := "dev" } "g" "i" _
      (Reachable.parse [] okLib "tp" "dev" "g" "i" "n" ["f"] []
        Reachable.empty)
      rfl⟩

/-! ### Interleaving semantics for concurrent calls (for C10) -/

/-- A cache program touches only the single key `k`: every atomic load and
store it performs is on `k`. Both `Parse` and `Execute` have this shape. -/
inductive OnKey {α : Type} (k : String) : Prog α → Prop where
  | done (a : α) : OnKey k (Prog.done a)
  | load (cont : Option CacheValue → Prog α) :
      (∀ v, OnKey k (cont v)) → OnKey k (Prog.load k cont)
  | store (v : CacheValue) (p : Prog α) :
      OnKey k p → OnKey k (Prog.store k v p)

/-- Run two programs concurrently against the shared cache: the schedule
picks, step by step, which program performs its next atomic map operation;
once the schedule is exhausted (or one side is finished) the remainders run
to completion. Returns both results and the final cache. -/
def interleave {α β : Type} :
    List Bool → Prog α → Prog β → Cache → α × β × Cache
  | [], pa, pb, c =>
      let ra := Prog.run pa c
      let rb := Prog.run pb ra.2
      (ra.1, rb.1, rb.2)
  | true :: s, pa, pb, c =>
      match pa with
      | Prog.done a =>
          let rb := Prog.run pb c
          (a, rb.1, rb.2)
      | Prog.load k f => interleave s (f (cacheLoad c k)) pb c
      | Prog.store k v p => interleave s p pb (cacheStore c k v)
  | false :: s, pa, pb, c =>
      match pb with
      | Prog.done b =>
          let ra := Prog.run pa c
          (ra.1, b, ra.2)
      | Prog.load k f => interleave s pa (f (cacheLoad c k)) c
      | Prog.store k v p => interleave s pa p (cacheStore c k v)

theorem run_frame {α : Type} (k k1 : String) (p : Prog α) (h : OnKey k p)
    (hk : k1 ≠ k) (c : Cache) :
    cacheLoad (Prog.run p c).2 k1 = cacheLoad c k1 := by
  induction h generalizing c with
  | done a => rfl
  | load cont hcont ih =>
      simp only [Prog.run]
      exact ih _ c
  | store v p hp ih =>
      simp only [Prog.run]
      rw [ih (cacheStore c k v), cacheLoad_store_ne c k k1 v hk]

theorem run_local {α : Type} (k : String) (p : Prog α) (h : OnKey k p)
    (c c1 : Cache) (hc : cacheLoad c k = cacheLoad c1 k) :
    (Prog.run p c).1 = (Prog.run p c1).1 ∧
    cacheLoad (Prog.run p c).2 k = cacheLoad (Prog.run p c1).2 k := by
  induction h generalizing c c1 with
  | done a => exact ⟨rfl, hc⟩
  | load cont hcont ih =>
      simp only [Prog.run]
      rw [hc]
      exact ih _ c c1 hc
  | store v p hp ih =>
      simp only [Prog.run]
      apply ih
      rw [cacheLoad_store_self, cacheLoad_store_self]

theorem interleave_indep {α β : Type} (a b : String) (hab : a ≠ b)
    (s : List Bool) :
    ∀ (pa : Prog α) (pb : Prog β) (c : Cache),
      OnKey a pa → OnKey b pb →
      (interleave s pa pb c).1 = (Prog.run pa c).1 ∧
      (interleave s pa pb c).2.1 = (Prog.run pb c).1 ∧
      cacheLoad (interleave s pa pb c).2.2 a =
        cacheLoad (Prog.run pa c).2 a ∧
      cacheLoad (interleave s pa pb c).2.2 b =
        cacheLoad (Prog.run pb c).2 b := by
  have hba : b ≠ a := fun h => hab h.symm
  induction s with
  | nil =>
      intro pa pb c ha hb
      have hfa : cacheLoad (Prog.run pa c).2 b = cacheLoad c b :=
        run_frame a b pa ha hba c
      have hlb := run_local b pb hb (Prog.run pa c).2 c hfa
      exact ⟨rfl, hlb.1, run_frame b a pb hb hab (Prog.run pa c).2, hlb.2⟩
  | cons bit s ih =>
      intro pa pb c ha hb
      cases bit
      · cases pb with
        | done y =>
            refine ⟨rfl, rfl, rfl, ?_⟩
            show cacheLoad (Prog.run pa c).2 b = cacheLoad c b
            exact run_frame a b pa ha hba c
        | load k f =>
            cases hb with
            | load cont hcont =>
                simp only [interleave, Prog.run]
                exact ih pa (f (cacheLoad c b)) c ha (hcont _)
        | store k v p =>
            cases hb with
            | store v p hp =>
                simp only [interleave, Prog.run]
                have hi := ih pa p (cacheStore c b v) ha hp
                have hca : cacheLoad (cacheStore c b v) a = cacheLoad c a :=
                  cacheLoad_store_ne c b a v hab
                have hla := run_local a pa ha (cacheStore c b v) c hca
                exact ⟨hi.1.trans hla.1, hi.2.1, hi.2.2.1.trans hla.2,
                  hi.2.2.2⟩
      · cases pa with
        | done x =>
            refine ⟨rfl, rfl, ?_, rfl⟩
            show cacheLoad (Prog.run pb c).2 a = cacheLoad c a
            exact run_frame b a pb hb hab c
        | load k f =>
            cases ha with
            | load cont hcont =>
                simp only [interleave, Prog.run]
                exact ih (f (cacheLoad c a)) pb c (hcont _) hb
        | store k v p =>
            cases ha with
            | store v p hp =>
                simp only [interleave, Prog.run]
                have hi := ih p pb (cacheStore c a v) hp hb
                have hcb : cacheLoad (cacheStore c a v) b = cacheLoad c b :=
                  cacheLoad_store_ne c a b v hba
                have hlb := run_local b pb hb (cacheStore c a v) c hcb
                exact ⟨hi.1, hi.2.1.trans hlb.1, hi.2.2.1,
                  hi.2.2.2.trans hlb.2⟩

theorem onKey_bind {α β : Type} (k : String) (p : Prog α) (f : α → Prog β)
    (hp : OnKey k p) (hf : ∀ x, OnKey k (f x)) : OnKey k (Prog.bind p f) := by
  induction hp with
  | done a => exact hf a
  | load cont hcont ih => exact OnKey.load _ (fun v => ih v)
  | store v q hq ih => exact OnKey.store _ _ ih

theorem onKey_ParseProg (lib : TemplateLib) (tp env group id name : String)
    (files directories : List String) :
    OnKey (getCacheKey group id)
      (ParseProg lib tp env group id name files directories) := by
  unfold ParseProg
  apply OnKey.load
  intro v
  split
  · split
    · exact OnKey.done _
    · exact OnKey.store _ _ (OnKey.done _)
  · exact OnKey.done _

theorem onKey_ExecuteProg (group id name data : String) :
    OnKey (getCacheKey group id) (ExecuteProg group id name data) := by
  unfold ExecuteProg
  apply OnKey.load
  intro v
  split <;> exact OnKey.done _

theorem onKey_ParseAndExecuteProg (lib : TemplateLib)
    (tp env group id name : String) (files directories : List String)
    (data : String) :
    OnKey (getCacheKey group id)
      (ParseAndExecuteProg lib tp env group id name files directories data) := by
  unfold ParseAndExecuteProg
  apply onKey_bind
  · exact onKey_ParseProg lib tp env group id name files directories
  · intro pr
    obtain ⟨res, fl⟩ := pr
    cases res with
    | some e => exact OnKey.done _
    | none => exact onKey_ExecuteProg group id name data

/-- C10: two concurrent `Parse`-then-`Execute` sequences on distinct cache
keys never interfere: under every schedule of their atomic cache
operations, each sequence returns exactly the result it would return
running alone against the starting cache, and the final cache at each key
is the entry the solo run would leave there. -/
theorem concurrent_disjoint_keys_independent (lib : TemplateLib)
    (tp env g1 i1 n1 g2 i2 n2 : String) (f1 d1 f2 d2 : List String)
    (dat1 dat2 : String)
    (hkey : getCacheKey g1 i1 ≠ getCacheKey g2 i2)
    (s : List Bool) (c : Cache) :
    (interleave s (ParseAndExecuteProg lib tp env g1 i1 n1 f1 d1 dat1)
        (ParseAndExecuteProg lib tp env g2 i2 n2 f2 d2 dat2) c).1 =
      (Prog.run (ParseAndExecuteProg lib tp env g1 i1 n1 f1 d1 dat1) c).1 ∧
    (interleave s (ParseAndExecuteProg lib tp env g1 i1 n1 f1 d1 dat1)
        (ParseAndExecuteProg lib tp env g2 i2 n2 f2 d2 dat2) c).2.1 =
      (Prog.run (ParseAndExecuteProg lib tp env g2 i2 n2 f2 d2 dat2) c).1 ∧
    cacheLoad (interleave s (ParseAndExecuteProg lib tp env g1 i1 n1 f1 d1
          dat1) (ParseAndExecuteProg lib tp env g2 i2 n2 f2 d2 dat2) c).2.2
        (getCacheKey g1 i1) =
      cacheLoad (Prog.run (ParseAndExecuteProg lib tp env g1 i1 n1 f1 d1
          dat1) c).2 (getCacheKey g1 i1) ∧
    cacheLoad (interleave s (ParseAndExecuteProg lib tp env g1 i1 n1 f1 d1
          dat1) (ParseAndExecuteProg lib tp env g2 i2 n2 f2 d2 dat2) c).2.2
        (getCacheKey g2 i2) =
      cacheLoad (Prog.run (ParseAndExecuteProg lib tp env g2 i2 n2 f2 d2
          dat2) c).2 (getCacheKey g2 i2) :=
  interleave_indep (getCacheKey g1 i1) (getCacheKey g2 i2) hkey s
    (ParseAndExecuteProg lib tp env g1 i1 n1 f1 d1 dat1)
    (ParseAndExecuteProg lib tp env g2 i2 n2 f2 d2 dat2) c
    (onKey_ParseAndExecuteProg lib tp env g1 i1 n1 f1 d1 dat1)
    (onKey_ParseAndExecuteProg lib tp env g2 i2 n2 f2 d2 dat2)

/-- One concrete concurrent thread for the C10 witness: parse and render
key `("a", "x")`. -/
def progA : Prog (Except RenderError String) :=
  ParseAndExecuteProg okLib "tp" "prod" "a" "x" "n1" ["f1"] [] "d1"

/-- The other concrete concurrent thread for the C10 witness: parse and
render key `("b", "y")`. -/
def progB : Prog (Except RenderError String) :=
  ParseAndExecuteProg okLib "tp" "prod" "b" "y" "n2" ["f2"] [] "d2"

/-- C10 witness: the two concrete threads interleaved under the schedule
`A, B, A, B` behave exactly as their solo runs from the empty cache. -/
theorem concurrent_disjoint_keys_independent_witness :
    getCacheKey "a" "x" ≠ getCacheKey "b" "y" ∧
    ((interleave [true, false, true, false] progA progB []).1 =
        (Prog.run progA []).1 ∧
      (interleave [true, false, true, false] progA progB []).2.1 =
        (Prog.run progB []).1 ∧
      cacheLoad (interleave [true, false, true, false] progA progB []).2.2
          (getCacheKey "a" "x") =
        cacheLoad (Prog.run progA []).2 (getCacheKey "a" "x") ∧
      cacheLoad (interleave [true, false, true, false] progA progB []).2.2
          (getCacheKey "b" "y") =
        cacheLoad (Prog.run progB []).2 (getCacheKey "b" "y")) :=
  ⟨by decide,
    concurrent_disjoint_keys_independent okLib "tp" "prod" "a" "x" "n1" "b"
      "y" "n2" ["f1"] [] ["f2"] [] "d1" "d2" (by decide)
      [true, false, true, false] []⟩
